import Mathlib

/-!
Shallow embedding of the `access-unit` repository (Rust) in Lean 4, together
with theorems settling the claims about its length-prefixed chunk iterator
(src/chunk.rs), AAC/ADTS codec (src/aac.rs), MPEG-audio header parser
(src/mp3.rs), ISO-BMFF box walker (src/mp4.rs) and FLAC frame-header
decoder (src/flac.rs).

Conventions used throughout the embedding:
* Byte buffers (`&[u8]`, `Bytes`) are `List Nat`; each element is a byte
  (`< 256`).  Theorems that depend on byte-ness carry explicit `< 256`
  hypotheses.
* Rust shift/mask expressions `(x >> k) & m` on unsigned integers are
  written `x / 2^k % (m+1)`, which agrees with the source for every `Nat`;
  `|` of fields occupying disjoint bit ranges is written `+`.
* Fallible code is `Option`/`Except`.  A Rust panic (index out of bounds,
  `usize` underflow, slice with start > end) is modelled as `none`, with a
  comment at the spot naming the panicking source expression.
-/

set_option maxHeartbeats 1000000

deriving instance DecidableEq for Except

namespace AccessUnit

/-! ### src/aac.rs -/

/-- `sample_rate_index` (src/aac.rs:135-152): fixed 13-entry sample-rate
table; anything else maps to 0xF. -/
def sample_rate_index (sampleRate : Nat) : Nat :=
  if sampleRate = 96000 then 0x0
  else if sampleRate = 88200 then 0x1
  else if sampleRate = 64000 then 0x2
  else if sampleRate = 48000 then 0x3
  else if sampleRate = 44100 then 0x4
  else if sampleRate = 32000 then 0x5
  else if sampleRate = 24000 then 0x6
  else if sampleRate = 22050 then 0x7
  else if sampleRate = 16000 then 0x8
  else if sampleRate = 12000 then 0x9
  else if sampleRate = 11025 then 0xA
  else if sampleRate = 8000 then 0xB
  else if sampleRate = 7350 then 0xC
  else 0xF

/-- The 13 sample rates of the `sample_rate_index` table (src/aac.rs:136-149). -/
def adtsSampleRates : List Nat :=
  [96000, 88200, 64000, 48000, 44100, 32000, 24000, 22050, 16000, 12000, 11025, 8000, 7350]

/-- `create_adts_header` (src/aac.rs:90-133).  The packed bytes are written
with `/`, `%`, `*`, `+`; each equals the source's shift/or expression
because the packed fields occupy disjoint bit ranges:
`b2 = (profile_object_type << 6) | (sample_rate_index << 2) | (channel_config >> 2)`,
`b3 = ((channel_config & 3) << 6) | ((frame_length >> 11) & 3)`,
`b4 = (frame_length >> 3) & 0xFF`, `b5 = ((frame_length & 7) << 5) | 0x1F`. -/
def create_adts_header (codecId channels sampleRate aacFrameLength : Nat)
    (hasCrc : Bool) : List Nat :=
  let profileObjectType :=
    if codecId = 0x66 then 1 else if codecId = 0x67 then 2
    else if codecId = 0x68 then 3 else 1
  let sampleRateIdx := sample_rate_index sampleRate
  let channelConfig := min channels 7
  let headerLength := if hasCrc then 9 else 7
  let frameLength := aacFrameLength + headerLength
  let protectionAbsent := if hasCrc then 0 else 1
  let b2 := profileObjectType * 64 + sampleRateIdx * 4 + channelConfig / 4
  let b3 := channelConfig % 4 * 64 + frameLength / 2048 % 4
  let b4 := frameLength / 8 % 256
  let b5 := frameLength % 8 * 32 + 0x1F
  [0xFF, 0xF0 + protectionAbsent, b2, b3, b4, b5, 0xFC] ++
    (if hasCrc then [0x00, 0x00] else [])

/-- The three ways `extract_aac_data` can leave its body: a recovered
payload (`Some(slice)`), an explicit `None`, or the panic of
`Bytes::slice(header_size..frame_length)` when `header_size > frame_length`
(aac.rs:64, reachable e.g. on `[FF,F1,00,00,00,00,00]`, whose parsed frame
length is 0). -/
inductive AacExtract
  | payload (bytes : List Nat)
  | noHeader
  | slicePanic
deriving DecidableEq

/-- `extract_aac_data` (src/aac.rs:38-65), with the slice panic kept as a
distinct outcome so that callers (`ensure_adts_header`) can propagate it. -/
def extract_aac_data_full (soundData : List Nat) : AacExtract :=
  if soundData.length < 7 then .noHeader
  else if soundData.getD 0 0 ≠ 0xFF ∨ soundData.getD 1 0 / 16 % 16 ≠ 0xF then .noHeader
  else
    let protectionAbsent := soundData.getD 1 0 % 2 = 1
    let headerSize := if protectionAbsent then 7 else 9
    if soundData.length < headerSize then .noHeader
    else
      let frameLength := soundData.getD 3 0 % 4 * 2048 + soundData.getD 4 0 * 8 +
        soundData.getD 5 0 / 32
      if soundData.length < frameLength then .noHeader
      else if headerSize ≤ frameLength then
        .payload ((soundData.take frameLength).drop headerSize)
      else .slicePanic

/-- `extract_aac_data` as an `Option`, for the claims that only observe
whether a payload comes back; the panic is collapsed to `none` here (the
claims that depend on the distinction use `extract_aac_data_full`). -/
def extract_aac_data (soundData : List Nat) : Option (List Nat) :=
  match extract_aac_data_full soundData with
  | .payload bytes => some bytes
  | _ => none

/-- `ensure_adts_header` (src/aac.rs:67-88).  The call
`extract_aac_data(&data)` panics inside this function when it reaches the
`Bytes::slice` panic (`.slicePanic`, modelled as `none`).  When it returns
`None`, the source reads `data[0]`, computes `data.len() - 2` and slices
`data[2..]`; for `data.len() < 2` this panics too (index out of bounds for
the empty buffer, `usize` underflow / out-of-range slice for length 1),
also modelled as `none`. -/
def ensure_adts_header (data : List Nat) (channels sampleRate : Nat) :
    Option (List Nat) :=
  match extract_aac_data_full data with
  | .payload _ => some data
  | .slicePanic => none
  | .noHeader =>
    if data.length < 2 then none
    else
      let audioObjectType := data.getD 0 0 / 8
      let profile :=
        if audioObjectType = 1 then 0x66 else if audioObjectType = 2 then 0x67
        else if audioObjectType = 5 then 0x68 else 0x66
      some (create_adts_header profile channels sampleRate (data.length - 2) false
        ++ data.drop 2)

/-! ### src/chunk.rs -/

/-- `u32::from_le_bytes` of the four bytes at `i` (src/chunk.rs:28-29). -/
def u32LE (data : List Nat) (i : Nat) : Nat :=
  data.getD i 0 + data.getD (i + 1) 0 * 256 + data.getD (i + 2) 0 * 65536 +
    data.getD (i + 3) 0 * 16777216

/-- `LpChunkIter` (src/chunk.rs:1-5). -/
structure LpChunkIter where
  data : List Nat
  pos : Nat
  index : Nat
deriving DecidableEq

/-- `LpChunkIter::new` (src/chunk.rs:8-14). -/
def LpChunkIter.new (data : List Nat) : LpChunkIter := ⟨data, 0, 0⟩

/-- `LpChunkIter::next` (src/chunk.rs:20-41): returns the yielded item
(`none` = iteration over) together with the iterator's state after the
call. -/
def LpChunkIter.next (it : LpChunkIter) :
    Option (Except String (Nat × List Nat)) × LpChunkIter :=
  if it.pos + 4 > it.data.length then
    if it.pos = it.data.length then (none, it)
    else (some (.error "Incomplete length prefix"), it)
  else
    let chunkLen := u32LE it.data it.pos
    let pos1 := it.pos + 4
    if pos1 + chunkLen > it.data.length then
      (some (.error "Incomplete chunk data"), { it with pos := pos1 })
    else
      (some (.ok (it.index, (it.data.take (pos1 + chunkLen)).drop pos1)),
        { it with pos := pos1 + chunkLen, index := it.index + 1 })

/-- State of the iterator after `n` further calls to `next`. -/
def LpChunkIter.stepN (it : LpChunkIter) : Nat → LpChunkIter
  | 0 => it
  | n + 1 => (it.next.2).stepN n

/-! ### src/mp3.rs -/

/-- `MpegVersion` (src/mp3.rs:1-6). -/
inductive MpegVersion
  | V1
  | V2
  | V25
deriving DecidableEq

/-- `MpegLayer` (src/mp3.rs:8-13). -/
inductive MpegLayer
  | LayerI
  | LayerII
  | LayerIII
deriving DecidableEq

/-- `ChannelMode` (src/mp3.rs:15-21). -/
inductive ChannelMode
  | Stereo
  | JointStereo
  | DualChannel
  | Mono
deriving DecidableEq

/-- `Mp3FrameHeader` (src/mp3.rs:23-33). -/
structure Mp3FrameHeader where
  version : MpegVersion
  layer : MpegLayer
  bitrateKbps : Nat
  sampleRate : Nat
  padding : Bool
  channelMode : ChannelMode
  frameLength : Nat
  samplesPerFrame : Nat
deriving DecidableEq

/-- `Mp3HeaderError` (src/mp3.rs:35-44). -/
inductive Mp3HeaderError
  | TooShort
  | InvalidSync
  | ReservedVersion
  | ReservedLayer
  | BadBitrate
  | BadSampleRate
  | ReservedEmphasis
deriving DecidableEq

/-- Bitrate table (src/mp3.rs:46-48). -/
def BITRATE_V1_L1 : List Nat :=
  [32, 64, 96, 128, 160, 192, 224, 256, 288, 320, 352, 384, 416, 448]

/-- Bitrate table (src/mp3.rs:49-51). -/
def BITRATE_V1_L2 : List Nat :=
  [32, 48, 56, 64, 80, 96, 112, 128, 160, 192, 224, 256, 320, 384]

/-- Bitrate table (src/mp3.rs:52-54). -/
def BITRATE_V1_L3 : List Nat :=
  [32, 40, 48, 56, 64, 80, 96, 112, 128, 160, 192, 224, 256, 320]

/-- Bitrate table (src/mp3.rs:55-57). -/
def BITRATE_V2_L1 : List Nat :=
  [32, 48, 56, 64, 80, 96, 112, 128, 144, 160, 176, 192, 224, 256]

/-- Bitrate table (src/mp3.rs:58-60). -/
def BITRATE_V2_L2_L3 : List Nat :=
  [8, 16, 24, 32, 40, 48, 56, 64, 80, 96, 112, 128, 144, 160]

/-- `bitrate_kbps` (src/mp3.rs:150-164).  The source indexes
`table[index - 1]` after excluding 0 and 15; every caller passes a 4-bit
index, so `get?` agrees with the source on all reachable inputs. -/
def bitrate_kbps (version : MpegVersion) (layer : MpegLayer) (index : Nat) :
    Option Nat :=
  if index = 0 ∨ index = 0xF then none
  else
    let table :=
      match version, layer with
      | .V1, .LayerI => BITRATE_V1_L1
      | .V1, .LayerII => BITRATE_V1_L2
      | .V1, .LayerIII => BITRATE_V1_L3
      | _, .LayerI => BITRATE_V2_L1
      | _, _ => BITRATE_V2_L2_L3
    table.get? (index - 1)

/-- `sample_rate` (src/mp3.rs:166-189). -/
def sample_rate (version : MpegVersion) (index : Nat) : Option Nat :=
  let value :=
    match version with
    | .V1 => if index = 0 then 44100 else if index = 1 then 48000
        else if index = 2 then 32000 else 0
    | .V2 => if index = 0 then 22050 else if index = 1 then 24000
        else if index = 2 then 16000 else 0
    | .V25 => if index = 0 then 11025 else if index = 1 then 12000
        else if index = 2 then 8000 else 0
  if value = 0 then none else some value

/-- `samples_per_frame` (src/mp3.rs:191-198). -/
def samples_per_frame (version : MpegVersion) (layer : MpegLayer) : Nat :=
  match layer, version with
  | .LayerI, _ => 384
  | .LayerII, _ => 1152
  | .LayerIII, .V1 => 1152
  | .LayerIII, _ => 576

/-- `frame_length_bytes` (src/mp3.rs:200-221). -/
def frame_length_bytes (samplesPerFrame bitrateKbps sampleRate : Nat)
    (layer : MpegLayer) (padding : Bool) : Nat :=
  let samples := samplesPerFrame
  let bitrate := bitrateKbps * 1000
  let length := samples * bitrate / (sampleRate * 8)
  let paddingBytes :=
    if layer = MpegLayer.LayerI ∧ padding = true then 4
    else if padding = true then 1 else 0
  length + paddingBytes

/-- Version bits of byte 1 (src/mp3.rs:98-103); `none` = reserved `01`. -/
def versionOfBits (v : Nat) : Option MpegVersion :=
  if v = 0 then some .V25 else if v = 2 then some .V2
  else if v = 3 then some .V1 else none

/-- Layer bits of byte 1 (src/mp3.rs:105-110); `none` = reserved `00`. -/
def layerOfBits (l : Nat) : Option MpegLayer :=
  if l = 1 then some .LayerIII else if l = 2 then some .LayerII
  else if l = 3 then some .LayerI else none

/-- Channel-mode bits of byte 3 (src/mp3.rs:122-127). -/
def channelModeOfBits (c : Nat) : ChannelMode :=
  if c = 0 then .Stereo else if c = 1 then .JointStereo
  else if c = 2 then .DualChannel else .Mono

/-- `parse_frame_header` (src/mp3.rs:84-148). -/
def parse_frame_header (input : List Nat) : Except Mp3HeaderError Mp3FrameHeader :=
  if input.length < 4 then .error .TooShort
  else
    let b0 := input.getD 0 0
    let b1 := input.getD 1 0
    let b2 := input.getD 2 0
    let b3 := input.getD 3 0
    if b0 ≠ 0xFF ∨ b1 / 32 % 8 ≠ 7 then .error .InvalidSync
    else
      match versionOfBits (b1 / 8 % 4) with
      | none => .error .ReservedVersion
      | some version =>
        match layerOfBits (b1 / 2 % 4) with
        | none => .error .ReservedLayer
        | some layer =>
          match bitrate_kbps version layer (b2 / 16 % 16) with
          | none => .error .BadBitrate
          | some bitrateKbps =>
            match sample_rate version (b2 / 4 % 4) with
            | none => .error .BadSampleRate
            | some sampleRate =>
              let padding := decide (b2 / 2 % 2 = 1)
              let channelMode := channelModeOfBits (b3 / 64 % 4)
              if b3 % 4 = 2 then .error .ReservedEmphasis
              else
                let spf := samples_per_frame version layer
                .ok ⟨version, layer, bitrateKbps, sampleRate, padding, channelMode,
                  frame_length_bytes spf bitrateKbps sampleRate layer padding, spf⟩

/-! ### src/mp4.rs -/

/-- `u32::from_be_bytes` of the four bytes at `i` (src/mp4.rs:108). -/
def u32BE (data : List Nat) (i : Nat) : Nat :=
  data.getD i 0 * 16777216 + data.getD (i + 1) 0 * 65536 +
    data.getD (i + 2) 0 * 256 + data.getD (i + 3) 0

/-- `u64::from_be_bytes` of the eight bytes at `i` (src/mp4.rs:116). -/
def u64BE (data : List Nat) (i : Nat) : Nat :=
  u32BE data i * 4294967296 + u32BE data (i + 4)

/-- Header length of the box at `offset`: 16 when the 32-bit size field is
1, else 8 (src/mp4.rs:109,117). -/
def boxHeaderLen (data : List Nat) (offset : Nat) : Nat :=
  if u32BE data offset = 1 then 16 else 8

/-- Effective declared size of the box at `offset` (src/mp4.rs:110-120):
the 64-bit size for size code 1, the remainder of the buffer for size code
0, else the 32-bit size itself. -/
def boxSize (data : List Nat) (offset : Nat) : Nat :=
  if u32BE data offset = 1 then u64BE data (offset + 8)
  else if u32BE data offset = 0 then data.length - offset
  else u32BE data offset

/-- `next_box` (src/mp4.rs:103-136): `(type code, content slice, end
offset)`.  `offset.checked_add` cannot overflow on `Nat`. -/
def next_box (data : List Nat) (offset : Nat) :
    Option (List Nat × List Nat × Nat) :=
  if offset + 8 > data.length then none
  else
    let size32 := u32BE data offset
    let headerLen := if size32 = 1 then 16 else 8
    if size32 = 1 ∧ offset + 16 > data.length then none
    else
      let size :=
        if size32 = 1 then u64BE data (offset + 8)
        else if size32 = 0 then data.length - offset
        else size32
      if size < headerLen then none
      else
        let endOff := offset + size
        if endOff > data.length then none
        else
          some ((data.take (offset + 8)).drop (offset + 4),
            (data.take endOff).drop (offset + headerLen), endOff)

/-! ### src/flac.rs -/

/-- `FLACError` (src/flac.rs:15-25). -/
inductive FLACError
  | InvalidSyncCode
  | InvalidChannelMode (mode : Nat)
  | InvalidSampleSizeCode (code : Nat)
  | InvalidPadding
  | UTF8DecodingError
  | ReservedBlocksizeCode
  | IllegalSampleRateCode (code : Nat)
  | UnexpectedEndOfInput
deriving DecidableEq

/-- `FLACFrameInfo` (src/flac.rs:3-13). -/
structure FLACFrameInfo where
  is_var_size : Bool
  blocking_strategy : Nat
  block_size : Nat
  sample_rate : Nat
  ch_mode : Nat
  channels : Nat
  bps : Nat
  frame_or_sample_num : Nat
deriving DecidableEq

/-- `SAMPLE_SIZE_TABLE` (src/flac.rs:48). -/
def SAMPLE_SIZE_TABLE : List Nat := [0, 8, 12, 0, 16, 20, 24, 32]

/-- `FLAC_BLOCKSIZE_TABLE` (src/flac.rs:49-51). -/
def FLAC_BLOCKSIZE_TABLE : List Nat :=
  [0, 192, 576, 1152, 2304, 4608, 0, 0, 256, 512, 1024, 2048, 4096, 8192, 16384, 32768]

/-- `FLAC_SAMPLE_RATE_TABLE` (src/flac.rs:52-54). -/
def FLAC_SAMPLE_RATE_TABLE : List Nat :=
  [0, 88200, 176400, 192000, 8000, 16000, 22050, 24000, 32000, 44100, 48000, 96000]

/-- `BitReader::read_bit` (src/flac.rs:172-184).  The cursor state is the
bit position; the Rust method returns `bit == 1`, and every use either
folds the bit into an accumulator or compares it with 1, so the bit is
returned as a `Nat` (0 or 1). -/
def readBit (data : List Nat) (pos : Nat) : Except FLACError (Nat × Nat) :=
  if pos / 8 < data.length then
    .ok (data.getD (pos / 8) 0 / 2 ^ (7 - pos % 8) % 2, pos + 1)
  else .error .UnexpectedEndOfInput

/-- Loop body of `BitReader::read` (src/flac.rs:164-170):
`result = (result << 1) | read_bit()?` repeated `n` times. -/
def readAux (data : List Nat) : Nat → Nat → Nat → Except FLACError (Nat × Nat)
  | 0, acc, pos => .ok (acc, pos)
  | n + 1, acc, pos =>
    match readBit data pos with
    | .error e => .error e
    | .ok (b, p) => readAux data n (acc * 2 + b) p

/-- `BitReader::read` (src/flac.rs:164-170). -/
def read (data : List Nat) (numBits pos : Nat) : Except FLACError (Nat × Nat) :=
  readAux data numBits 0 pos

/-- `BitReader::skip` (src/flac.rs:186-192): advances the bit position and
fails when the resulting byte index is not strictly inside the buffer. -/
def skip (data : List Nat) (numBits pos : Nat) : Except FLACError Nat :=
  if data.length ≤ (pos + numBits) / 8 then .error .UnexpectedEndOfInput
  else .ok (pos + numBits)

/-- Loop of `read_utf8` (src/flac.rs:132-149).  `byte & 0xF8 ≠ 0` is
written `byte / 8 % 32 ≠ 0` and `byte & 0x80 = 0` is `byte / 128 % 2 = 0`;
`value |= (byte & 0x7F) << shift` is `u64` arithmetic, modelled with
`% 2^64` (the or-ed field is disjoint from the bits already accumulated;
for `shift ≥ 64` — reachable only after ten continuation bytes — the Rust
shift overflows, which no theorem below depends on).  The loop consumes a
byte per iteration, so it is driven by a fuel parameter; fuel
`data.length + 1` is enough for every input (`readUtf8Aux_ok_mono` and the
success positions below make this precise). -/
def readUtf8Aux (data : List Nat) : Nat → Nat → Nat → Nat → Except FLACError (Nat × Nat)
  | 0, _, _, _ => .error .UnexpectedEndOfInput
  | fuel + 1, value, shift, pos =>
    match read data 8 pos with
    | .error e => .error e
    | .ok (byte, p) =>
      if shift = 36 ∧ byte / 8 % 32 ≠ 0 then .error .UTF8DecodingError
      else
        let value1 := (value + byte % 128 * 2 ^ shift) % 2 ^ 64
        if byte / 128 % 2 = 0 then .ok (value1, p)
        else readUtf8Aux data fuel value1 (shift + 7) p

/-- `read_utf8` (src/flac.rs:132-149). -/
def read_utf8 (data : List Nat) (pos : Nat) : Except FLACError (Nat × Nat) :=
  readUtf8Aux data (data.length + 1) 0 0 pos

/-- The block-size arm of `decode_frame_header` (src/flac.rs:110-115):
code 0 is reserved, 6 reads 8 bits + 1, 7 reads 16 bits + 1 (`as u16`
arithmetic, hence the `% 65536`), anything else indexes the table. -/
def readBlockSize (data : List Nat) (bsCode pos : Nat) :
    Except FLACError (Nat × Nat) :=
  if bsCode = 0 then .error .ReservedBlocksizeCode
  else if bsCode = 6 then
    match read data 8 pos with
    | .error e => .error e
    | .ok (v, p) => .ok (v + 1, p)
  else if bsCode = 7 then
    match read data 16 pos with
    | .error e => .error e
    | .ok (v, p) => .ok ((v + 1) % 65536, p)
  else .ok (FLAC_BLOCKSIZE_TABLE.getD bsCode 0, pos)

/-- The sample-rate arm of `decode_frame_header` (src/flac.rs:118-124):
codes 0-11 index the table, 12 reads 8 bits × 1000, 13 reads 16 bits,
14 reads 16 bits × 10, 15 is illegal. -/
def readSampleRate (data : List Nat) (srCode pos : Nat) :
    Except FLACError (Nat × Nat) :=
  if srCode ≤ 11 then .ok (FLAC_SAMPLE_RATE_TABLE.getD srCode 0, pos)
  else if srCode = 12 then
    match read data 8 pos with
    | .error e => .error e
    | .ok (v, p) => .ok (v * 1000, p)
  else if srCode = 13 then read data 16 pos
  else if srCode = 14 then
    match read data 16 pos with
    | .error e => .error e
    | .ok (v, p) => .ok (v * 10, p)
  else .error (.IllegalSampleRateCode srCode)

/-- All field reads of `decode_frame_header` (src/flac.rs:65-124), i.e.
everything before the final CRC `skip` on line 127; returns the frame info
together with the bit position at which the CRC byte starts.  Nested
`match`es mirror the `?` operator; table indexing is `getD _ 0` (the codes
are 3- and 4-bit, so indexing cannot fail in the source either). -/
def decodeCore (data : List Nat) : Except FLACError (FLACFrameInfo × Nat) :=
  match read data 15 0 with
  | .error e => .error e
  | .ok (sync, p1) =>
    if sync ≠ 0x7FFC then .error .InvalidSyncCode
    else
      match readBit data p1 with
      | .error e => .error e
      | .ok (vbit, p2) =>
        match read data 4 p2 with
        | .error e => .error e
        | .ok (bsCode, p3) =>
          match read data 4 p3 with
          | .error e => .error e
          | .ok (srCode, p4) =>
            match read data 4 p4 with
            | .error e => .error e
            | .ok (chRaw, p5) =>
              match
                (if chRaw < 8 then .ok (chRaw + 1, 0)
                 else if chRaw < 11 then .ok (2, chRaw - 7)
                 else .error (.InvalidChannelMode chRaw) :
                  Except FLACError (Nat × Nat)) with
              | .error e => .error e
              | .ok (channels, chMode) =>
                match read data 3 p5 with
                | .error e => .error e
                | .ok (bpsCode, p6) =>
                  if bpsCode = 3 then .error (.InvalidSampleSizeCode bpsCode)
                  else
                    let bps := SAMPLE_SIZE_TABLE.getD bpsCode 0
                    match readBit data p6 with
                    | .error e => .error e
                    | .ok (rbit, p7) =>
                      if rbit = 1 then .error .InvalidPadding
                      else
                        match read_utf8 data p7 with
                        | .error e => .error e
                        | .ok (num, p8) =>
                          match readBlockSize data bsCode p8 with
                          | .error e => .error e
                          | .ok (blockSize, p9) =>
                            match readSampleRate data srCode p9 with
                            | .error e => .error e
                            | .ok (sampleRate, p10) =>
                              .ok (⟨decide (vbit = 1), if vbit = 1 then 1 else 0,
                                blockSize, sampleRate, chMode, channels, bps, num⟩, p10)

/-- `decode_frame_header` (src/flac.rs:65-130): the field reads of
`decodeCore` followed by `reader.skip(8)` over the CRC byte. -/
def decode_frame_header (data : List Nat) : Except FLACError FLACFrameInfo :=
  match decodeCore data with
  | .error e => .error e
  | .ok (fi, pos) =>
    match skip data 8 pos with
    | .error e => .error e
    | .ok _ => .ok fi

/-- The 2-byte FLAC sync test `data[i] == 0xFF && (data[i+1] & 0xFC) == 0xF8`
(src/flac.rs:234). -/
def flacSyncAt (data : List Nat) (i : Nat) : Bool :=
  data.getD i 0 == 255 && data.getD (i + 1) 0 / 4 % 64 == 62

/-- The scan loop of `extract_flac_frame` (src/flac.rs:233-237): tries
`fuel` consecutive candidate offsets starting at `i`. -/
def scanSync (data : List Nat) (i : Nat) : Nat → List Nat
  | 0 => []
  | fuel + 1 =>
    if flacSyncAt data i then data.drop i else scanSync data (i + 1) fuel

/-- `extract_flac_frame` (src/flac.rs:230-239).  The loop bound
`0..data.len() - 1` underflows for the empty buffer (debug panic; in
release the wrapped bound makes `data[i]` go out of bounds), modelled as
`none`; otherwise the loop visits offsets `0, …, data.len() - 2`. -/
def extract_flac_frame (data : List Nat) : Option (List Nat) :=
  if data.length = 0 then none
  else some (scanSync data 0 (data.length - 1))

/-! ## Claims -/

/-- C1 (amended): once `LpChunkIter::next` yields an `IncompleteLengthPrefix`
error item the iterator state is unchanged, so every later call yields the
same error again; iterating over `[05,00,00,00,41]` yields one
`IncompleteChunkData` error item and then an `IncompleteLengthPrefix` error
item on every subsequent call — the sequence does not stop. -/
theorem lp_chunk_iter_error_items :
    (∀ (it it2 : LpChunkIter) (out : Option (Except String (Nat × List Nat))),
      it.next = (out, it2) → out = some (.error "Incomplete length prefix") →
      it2 = it) ∧
    (LpChunkIter.new [5, 0, 0, 0, 0x41]).next.1 =
      some (.error "Incomplete chunk data") ∧
    ∀ n : Nat, ((LpChunkIter.new [5, 0, 0, 0, 0x41]).next.2.stepN n).next.1 =
      some (.error "Incomplete length prefix") := by
  refine ⟨?_, by decide, ?_⟩
  · intro it it2 out h hout
    subst hout
    simp only [LpChunkIter.next] at h
    split_ifs at h with h1 h2 h3
    · exact absurd (congrArg Prod.fst h) (by simp)
    · exact (congrArg Prod.snd h).symm
    · have := congrArg Prod.fst h
      simp only at this
      exact absurd (Except.error.inj (Option.some.inj this)) (by decide)
    · have := congrArg Prod.fst h
      simp only at this
      exact Except.noConfusion (Option.some.inj this)
  · have hfix : ((LpChunkIter.new [5, 0, 0, 0, 0x41]).next.2).next.2 =
        (LpChunkIter.new [5, 0, 0, 0, 0x41]).next.2 := by decide
    have hstep : ∀ n, ((LpChunkIter.new [5, 0, 0, 0, 0x41]).next.2).stepN n =
        (LpChunkIter.new [5, 0, 0, 0, 0x41]).next.2 := by
      intro n
      induction n with
      | zero => rfl
      | succ n ih => simp only [LpChunkIter.stepN, hfix]; exact ih
    intro n
    rw [hstep n]
    decide

/-- C1 witness: the theorem applied to the iterator state reached on
`[05,00,00,00,41]` after the first call. -/
theorem lp_chunk_iter_error_items_witness :
    (LpChunkIter.mk [5, 0, 0, 0, 0x41] 4 0).next.2 =
      LpChunkIter.mk [5, 0, 0, 0, 0x41] 4 0 :=
  lp_chunk_iter_error_items.1 _ _ _ rfl rfl

/-- C1 counterexample: the claim says that after the single
`IncompleteChunkData` item on `[05,00,00,00,41]` the next call yields
`None`; it actually yields an `IncompleteLengthPrefix` error item. -/
theorem lp_chunk_iter_stop_claim_false :
    (LpChunkIter.new [5, 0, 0, 0, 0x41]).next.2.next.1 =
      some (.error "Incomplete length prefix") ∧
    (LpChunkIter.new [5, 0, 0, 0, 0x41]).next.2.next.1 ≠ none := by decide

/-- C2 (amended): `ensure_adts_header` returns a byte sequence for every
input of length at least 2 on which the inner `extract_aac_data` call does
not hit its `Bytes::slice` panic (a parsed ADTS header whose declared
frame length is smaller than the header size), and when the input has no
ADTS header and its object type is none of 1, 2, 5 the synthesized header
uses the AAC-LC profile `0x66` (the silent default). -/
theorem ensure_adts_header_len2_total (data : List Nat) (channels sampleRate : Nat)
    (h2 : 2 ≤ data.length)
    (hnp : extract_aac_data_full data ≠ AacExtract.slicePanic) :
    (ensure_adts_header data channels sampleRate).isSome = true ∧
    (extract_aac_data_full data = AacExtract.noHeader → data.getD 0 0 / 8 ≠ 1 →
      data.getD 0 0 / 8 ≠ 2 → data.getD 0 0 / 8 ≠ 5 →
      ensure_adts_header data channels sampleRate =
        some (create_adts_header 0x66 channels sampleRate (data.length - 2) false
          ++ data.drop 2)) := by
  constructor
  · cases hx : extract_aac_data_full data with
    | payload v => simp [ensure_adts_header, hx]
    | slicePanic => exact absurd hx hnp
    | noHeader =>
      simp only [ensure_adts_header, hx]
      rw [if_neg (by omega)]
      simp
  · intro hx h1 h2' h5
    simp only [ensure_adts_header, hx]
    rw [if_neg (by omega), if_neg h1, if_neg h2', if_neg h5]

/-- C2 witness: a 3-byte payload with unknown object type 31. -/
theorem ensure_adts_header_len2_total_witness :
    (ensure_adts_header [0xFF, 0, 0] 2 44100).isSome = true ∧
    ensure_adts_header [0xFF, 0, 0] 2 44100 =
      some (create_adts_header 0x66 2 44100 1 false ++ [0]) := by
  have h := ensure_adts_header_len2_total [0xFF, 0, 0] 2 44100 (by decide) (by decide)
  exact ⟨h.1, h.2 (by decide) (by decide) (by decide) (by decide)⟩

/-- C2 counterexample: on the empty input `ensure_adts_header` reads
`data[0]` and panics; on a 1-byte input `data.len() - 2` underflows and
`data[2..]` is out of range; and on `[FF,F1,00,00,00,00,00]` (length 7)
the inner `extract_aac_data` call parses a frame length of 0 and panics in
`Bytes::slice(7..0)` (all three modelled as `none`), so the operation does
not return a byte sequence for every input. -/
theorem ensure_adts_header_claim_false :
    ensure_adts_header [] 2 44100 = none ∧
    ensure_adts_header [0x12] 2 44100 = none ∧
    extract_aac_data_full [0xFF, 0xF1, 0, 0, 0, 0, 0] = AacExtract.slicePanic ∧
    ensure_adts_header [0xFF, 0xF1, 0, 0, 0, 0, 0] 2 44100 = none := by decide

/-- C4: the claim is the intended behaviour (first FLAC sync match or the
empty slice, no panic); the code instead evaluates `data.len() - 1`, which
panics on the empty buffer.  First conjunct: the empty buffer hits the
panic (modelled `none`); second: on a non-degenerate buffer the first sync
match is returned as documented. -/
theorem extract_flac_frame_empty_panics :
    extract_flac_frame [] = none ∧
    extract_flac_frame [0, 255, 249, 7] = some [255, 249, 7] := by decide

/-- C6: `next_box` returns `none` whenever fewer than 8 (resp. 16, for a
64-bit size) bytes remain at the offset, the declared size is below the
header length, or the computed end exceeds the buffer; on success the end
offset is within the buffer and the content slice runs from the end of the
header exactly to the declared end offset. -/
theorem next_box_bounds (data : List Nat) (offset : Nat) :
    (data.length < offset + 8 → next_box data offset = none) ∧
    (u32BE data offset = 1 → data.length < offset + 16 → next_box data offset = none) ∧
    (boxSize data offset < boxHeaderLen data offset → next_box data offset = none) ∧
    (data.length < offset + boxSize data offset → next_box data offset = none) ∧
    (∀ name content endOff, next_box data offset = some (name, content, endOff) →
      endOff ≤ data.length ∧ endOff = offset + boxSize data offset ∧
      content = (data.take endOff).drop (offset + boxHeaderLen data offset) ∧
      offset + boxHeaderLen data offset + content.length = endOff) := by
  by_cases h8 : offset + 8 > data.length
  · have hn : next_box data offset = none := by
      simp only [next_box]
      rw [if_pos h8]
    exact ⟨fun _ => hn, fun _ _ => hn, fun _ => hn, fun _ => hn,
      fun n c e h => by rw [hn] at h; cases h⟩
  · by_cases h1 : u32BE data offset = 1
    · have hsz : boxSize data offset = u64BE data (offset + 8) := by
        simp only [boxSize]
        rw [if_pos h1]
      have hhl : boxHeaderLen data offset = 16 := by
        simp only [boxHeaderLen]
        rw [if_pos h1]
      by_cases h16 : offset + 16 > data.length
      · have hn : next_box data offset = none := by
          simp only [next_box]
          rw [if_neg h8, if_pos ⟨h1, h16⟩]
        exact ⟨fun _ => hn, fun _ _ => hn, fun _ => hn, fun _ => hn,
          fun n c e h => by rw [hn] at h; cases h⟩
      · rw [hsz, hhl]
        have hbody : next_box data offset =
            (if u64BE data (offset + 8) < 16 then none
             else if offset + u64BE data (offset + 8) > data.length then none
             else some ((data.take (offset + 8)).drop (offset + 4),
               (data.take (offset + u64BE data (offset + 8))).drop (offset + 16),
               offset + u64BE data (offset + 8))) := by
          simp only [next_box]
          rw [if_neg h8, if_neg (fun hc => h16 hc.2), if_pos h1, if_pos h1]
        by_cases hlt : u64BE data (offset + 8) < 16
        · rw [if_pos hlt] at hbody
          exact ⟨fun h => absurd h h8, fun _ h => absurd h h16, fun _ => hbody,
            fun _ => hbody, fun n c e h => by rw [hbody] at h; cases h⟩
        · rw [if_neg hlt] at hbody
          by_cases hend : offset + u64BE data (offset + 8) > data.length
          · rw [if_pos hend] at hbody
            exact ⟨fun h => absurd h h8, fun _ h => absurd h h16,
              fun h => absurd h (by omega), fun _ => hbody,
              fun n c e h => by rw [hbody] at h; cases h⟩
          · rw [if_neg hend] at hbody
            refine ⟨fun h => absurd h h8, fun _ h => absurd h h16,
              fun h => absurd h (by omega), fun h => absurd h (by omega),
              fun n c e h => ?_⟩
            rw [hbody] at h
            injection h with h
            injection h with hn h
            injection h with hc he
            subst hn
            subst hc
            subst he
            refine ⟨by omega, rfl, rfl, ?_⟩
            simp only [List.length_drop, List.length_take]
            omega
    · have hsz : boxSize data offset =
          (if u32BE data offset = 0 then data.length - offset else u32BE data offset) := by
        simp only [boxSize]
        rw [if_neg h1]
      have hhl : boxHeaderLen data offset = 8 := by
        simp only [boxHeaderLen]
        rw [if_neg h1]
      rw [hsz, hhl]
      have hbody : next_box data offset =
          (if (if u32BE data offset = 0 then data.length - offset else u32BE data offset) < 8
           then none
           else if offset + (if u32BE data offset = 0 then data.length - offset
               else u32BE data offset) > data.length then none
           else some ((data.take (offset + 8)).drop (offset + 4),
             (data.take (offset + (if u32BE data offset = 0 then data.length - offset
               else u32BE data offset))).drop (offset + 8),
             offset + (if u32BE data offset = 0 then data.length - offset
               else u32BE data offset))) := by
        simp only [next_box]
        rw [if_neg h8, if_neg (fun hc => h1 hc.1), if_neg h1, if_neg h1]
      set S := (if u32BE data offset = 0 then data.length - offset else u32BE data offset)
        with hS
      by_cases hlt : S < 8
      · rw [if_pos hlt] at hbody
        exact ⟨fun h => absurd h h8, fun h _ => absurd h h1, fun _ => hbody,
          fun _ => hbody, fun n c e h => by rw [hbody] at h; cases h⟩
      · rw [if_neg hlt] at hbody
        by_cases hend : offset + S > data.length
        · rw [if_pos hend] at hbody
          exact ⟨fun h => absurd h h8, fun h _ => absurd h h1,
            fun h => absurd h (by omega), fun _ => hbody,
            fun n c e h => by rw [hbody] at h; cases h⟩
        · rw [if_neg hend] at hbody
          refine ⟨fun h => absurd h h8, fun h _ => absurd h h1,
            fun h => absurd h (by omega), fun h => absurd h (by omega),
            fun n c e h => ?_⟩
          rw [hbody] at h
          injection h with h
          injection h with hn h
          injection h with hc he
          subst hn
          subst hc
          subst he
          refine ⟨by omega, rfl, rfl, ?_⟩
          simp only [List.length_drop, List.length_take]
          omega

/-- C6 witness: an 8-byte `ftyp` box with one content byte, and a buffer
whose declared size exceeds the remaining bytes. -/
theorem next_box_bounds_witness :
    next_box [0, 0, 0, 9, 102, 116, 121, 112] 0 = none ∧
    (9 ≤ [0, 0, 0, 9, 102, 116, 121, 112, 55].length ∧
      9 = 0 + boxSize [0, 0, 0, 9, 102, 116, 121, 112, 55] 0 ∧
      [55] = (List.take 9 [0, 0, 0, 9, 102, 116, 121, 112, 55]).drop
        (0 + boxHeaderLen [0, 0, 0, 9, 102, 116, 121, 112, 55] 0) ∧
      0 + boxHeaderLen [0, 0, 0, 9, 102, 116, 121, 112, 55] 0 + [55].length = 9) :=
  ⟨(next_box_bounds [0, 0, 0, 9, 102, 116, 121, 112] 0).2.2.2.1 (by decide),
    (next_box_bounds [0, 0, 0, 9, 102, 116, 121, 112, 55] 0).2.2.2.2
      [102, 116, 121, 112] [55] 9 (by decide)⟩

/-- C3 (amended): for every successfully parsed MPEG audio header the
frame length equals
`floor(samples_per_frame * bitrate_bps / (8 * sample_rate)) + padding_bytes`
(the claim's formula without the division by 8 does not hold), with the
claimed samples-per-frame table and padding rule. -/
theorem parse_frame_header_length_formula (input : List Nat) (h : Mp3FrameHeader)
    (hok : parse_frame_header input = .ok h) :
    h.frameLength = h.samplesPerFrame * (h.bitrateKbps * 1000) / (h.sampleRate * 8) +
      (if h.layer = MpegLayer.LayerI ∧ h.padding = true then 4
       else if h.padding = true then 1 else 0) ∧
    h.samplesPerFrame = (match h.layer, h.version with
      | MpegLayer.LayerI, _ => 384
      | MpegLayer.LayerII, _ => 1152
      | MpegLayer.LayerIII, MpegVersion.V1 => 1152
      | MpegLayer.LayerIII, _ => 576) := by
  simp only [parse_frame_header] at hok
  by_cases hlen : input.length < 4
  · rw [if_pos hlen] at hok
    exact Except.noConfusion hok
  rw [if_neg hlen] at hok
  by_cases hsync : input.getD 0 0 ≠ 0xFF ∨ input.getD 1 0 / 32 % 8 ≠ 7
  · rw [if_pos hsync] at hok
    exact Except.noConfusion hok
  rw [if_neg hsync] at hok
  cases hv : versionOfBits (input.getD 1 0 / 8 % 4) with
  | none => rw [hv] at hok; exact Except.noConfusion hok
  | some version =>
  rw [hv] at hok
  dsimp only at hok
  cases hl : layerOfBits (input.getD 1 0 / 2 % 4) with
  | none => rw [hl] at hok; exact Except.noConfusion hok
  | some layer =>
  rw [hl] at hok
  dsimp only at hok
  cases hbr : bitrate_kbps version layer (input.getD 2 0 / 16 % 16) with
  | none => rw [hbr] at hok; exact Except.noConfusion hok
  | some br =>
  rw [hbr] at hok
  dsimp only at hok
  cases hsr : sample_rate version (input.getD 2 0 / 4 % 4) with
  | none => rw [hsr] at hok; exact Except.noConfusion hok
  | some sr =>
  rw [hsr] at hok
  dsimp only at hok
  by_cases hemp : input.getD 3 0 % 4 = 2
  · rw [if_pos hemp] at hok
    exact Except.noConfusion hok
  rw [if_neg hemp] at hok
  injection hok with hok
  subst hok
  constructor
  · simp only [frame_length_bytes]
  · cases layer <;> cases version <;> rfl

/-- C3 witness: the formula evaluated on the V1/LayerIII/128kbps/44100Hz
stereo header `FF FB 90 00`. -/
theorem parse_frame_header_length_formula_witness :
    (417 : Nat) = 1152 * (128 * 1000) / (44100 * 8) + 0 := by
  have h := parse_frame_header_length_formula [0xFF, 0xFB, 0x90, 0x00]
    ⟨.V1, .LayerIII, 128, 44100, false, .Stereo, 417, 1152⟩ (by decide)
  exact h.1.trans (by decide)

/-- C3 counterexample: on `FF FB 90 00` the parsed frame length is 417,
but the claim's formula (without the division by 8) gives
`floor(1152 * 128000 / 44100) + 0 = 3343`. -/
theorem parse_frame_header_formula_counterexample :
    parse_frame_header [0xFF, 0xFB, 0x90, 0x00] =
      .ok ⟨MpegVersion.V1, MpegLayer.LayerIII, 128, 44100, false, ChannelMode.Stereo,
        417, 1152⟩ ∧
    (417 : Nat) ≠ 1152 * (128 * 1000) / 44100 + 0 := by decide

/-- Helper: the version bits map to a version whenever they are not the
reserved pattern `01`. -/
lemma versionOfBits_cases (v : Nat) (h4 : v < 4) (h1 : v ≠ 1) :
    ∃ x, versionOfBits v = some x := by
  interval_cases v
  · exact ⟨_, rfl⟩
  · exact absurd rfl h1
  · exact ⟨_, rfl⟩
  · exact ⟨_, rfl⟩

/-- Helper: the layer bits map to a layer whenever they are not the
reserved pattern `00`. -/
lemma layerOfBits_cases (l : Nat) (h4 : l < 4) (h0 : l ≠ 0) :
    ∃ x, layerOfBits l = some x := by
  interval_cases l
  · exact absurd rfl h0
  · exact ⟨_, rfl⟩
  · exact ⟨_, rfl⟩
  · exact ⟨_, rfl⟩

/-- Helper: every non-reserved bitrate index yields a bitrate of at least
8 kbps (the minimum over all five tables). -/
lemma bitrate_kbps_some_min (version : MpegVersion) (layer : MpegLayer) (i : Nat)
    (h0 : i ≠ 0) (h15 : i ≠ 15) (h16 : i < 16) :
    ∃ br, bitrate_kbps version layer i = some br ∧ 8 ≤ br := by
  cases version <;> cases layer <;> interval_cases i <;>
    first
      | exact absurd rfl h0
      | exact absurd rfl h15
      | exact ⟨_, rfl, by norm_num⟩

/-- Helper: every non-reserved sample-rate index yields a positive sample
rate of at most 48000 Hz. -/
lemma sample_rate_some_bounds (version : MpegVersion) (i : Nat)
    (h4 : i < 4) (h3 : i ≠ 3) :
    ∃ sr, sample_rate version i = some sr ∧ 0 < sr ∧ sr ≤ 48000 := by
  cases version <;> interval_cases i <;>
    first
      | exact absurd rfl h3
      | exact ⟨_, rfl, by norm_num, by norm_num⟩

/-- Helper: every samples-per-frame value is at least 384. -/
lemma samples_per_frame_ge (version : MpegVersion) (layer : MpegLayer) :
    384 ≤ samples_per_frame version layer := by
  cases version <;> cases layer <;> decide

/-- C7: every 4-byte input with the MPEG-audio sync pattern and
non-reserved version, layer, bitrate-index, sample-rate-index and emphasis
fields parses successfully with a frame length of at least 4. -/
theorem mp3_parse_header_success (b0 b1 b2 b3 : Nat) (rest : List Nat)
    (hs0 : b0 = 0xFF) (hs1 : b1 / 32 % 8 = 7)
    (hv : b1 / 8 % 4 ≠ 1) (hl : b1 / 2 % 4 ≠ 0)
    (hb0 : b2 / 16 % 16 ≠ 0) (hb15 : b2 / 16 % 16 ≠ 15)
    (hsr3 : b2 / 4 % 4 ≠ 3) (hem : b3 % 4 ≠ 2) :
    ∃ h, parse_frame_header (b0 :: b1 :: b2 :: b3 :: rest) = .ok h ∧
      4 ≤ h.frameLength := by
  obtain ⟨version, hver⟩ :=
    versionOfBits_cases (b1 / 8 % 4) (Nat.mod_lt _ (by norm_num)) hv
  obtain ⟨layer, hlay⟩ :=
    layerOfBits_cases (b1 / 2 % 4) (Nat.mod_lt _ (by norm_num)) hl
  obtain ⟨br, hbr, hbr8⟩ :=
    bitrate_kbps_some_min version layer (b2 / 16 % 16) hb0 hb15
      (Nat.mod_lt _ (by norm_num))
  obtain ⟨sr, hsr, hsr0, hsr48⟩ :=
    sample_rate_some_bounds version (b2 / 4 % 4) (Nat.mod_lt _ (by norm_num)) hsr3
  subst hs0
  refine ⟨⟨version, layer, br, sr, decide (b2 / 2 % 2 = 1),
    channelModeOfBits (b3 / 64 % 4),
    frame_length_bytes (samples_per_frame version layer) br sr layer
      (decide (b2 / 2 % 2 = 1)),
    samples_per_frame version layer⟩, ?_, ?_⟩
  · simp only [parse_frame_header, List.length_cons, List.getD_cons_zero,
      List.getD_cons_succ]
    rw [if_neg (by omega), if_neg (by simp [hs1]), hver]
    dsimp only
    rw [hlay]
    dsimp only
    rw [hbr]
    dsimp only
    rw [hsr]
    dsimp only
    rw [if_neg hem]
  · show 4 ≤ frame_length_bytes (samples_per_frame version layer) br sr layer
      (decide (b2 / 2 % 2 = 1))
    have hspf := samples_per_frame_ge version layer
    have hmul : 4 * (sr * 8) ≤ samples_per_frame version layer * (br * 1000) :=
      calc 4 * (sr * 8) ≤ 4 * (48000 * 8) := by
            exact Nat.mul_le_mul_left 4 (Nat.mul_le_mul_right 8 hsr48)
        _ ≤ 384 * (8 * 1000) := by norm_num
        _ ≤ samples_per_frame version layer * (br * 1000) :=
            Nat.mul_le_mul hspf (Nat.mul_le_mul_right 1000 hbr8)
  -- frame_length_bytes = floor + padding; the floor part is already >= 4
    have hdiv : 4 ≤ samples_per_frame version layer * (br * 1000) / (sr * 8) :=
      (Nat.le_div_iff_mul_le (by omega)).mpr hmul
    simp only [frame_length_bytes]
    omega


/-- C7 witness: the header `FF FB 90 00`. -/
theorem mp3_parse_header_success_witness :
    ∃ h, parse_frame_header [0xFF, 0xFB, 0x90, 0x00] = .ok h ∧ 4 ≤ h.frameLength :=
  mp3_parse_header_success 0xFF 0xFB 0x90 0x00 [] rfl (by decide) (by decide)
    (by decide) (by decide) (by decide) (by decide) (by decide)

/-- C5 (amended): building an ADTS header and prepending it to the payload
round-trips through `extract_aac_data` for every profile code, channel
count ≤ 7, table sample rate and CRC setting, provided the total frame
length `payload length + header length` fits the 13-bit frame-length field
(is < 8192); without that bound the field wraps and the round-trip fails. -/
theorem adts_roundtrip (payload : List Nat) (profile channels sampleRate : Nat)
    (hasCrc : Bool) (_hch : channels ≤ 7) (_hsr : sampleRate ∈ adtsSampleRates)
    (hlen : payload.length + (if hasCrc then 9 else 7) < 8192) :
    extract_aac_data
      (create_adts_header profile channels sampleRate payload.length hasCrc ++ payload) =
      some payload := by
  have hfull : extract_aac_data_full
      (create_adts_header profile channels sampleRate payload.length hasCrc ++ payload) =
      AacExtract.payload payload := by
    cases hasCrc with
    | false =>
      have hfl : payload.length + 7 < 8192 := by simpa using hlen
      set cc := min channels 7 with hcc
      simp only [create_adts_header, extract_aac_data_full, ← hcc]
      norm_num [List.getD_cons_zero, List.getD_cons_succ, List.length_cons,
        List.length_append, List.cons_append, List.nil_append, List.append_nil]
      have hF : (cc % 4 * 64 + (payload.length + 7) / 2048) % 4 * 2048 +
          (payload.length + 7) / 8 % 256 * 8 + ((payload.length + 7) % 8 * 32 + 31) / 32 =
          payload.length + 7 := by omega
      rw [hF, if_neg (by omega), if_neg (by omega), if_neg (by omega),
        if_pos (by omega)]
      simp [List.take_succ_cons, List.drop_succ_cons, List.take_length]
    | true =>
      have hfl : payload.length + 9 < 8192 := by simpa using hlen
      set cc := min channels 7 with hcc
      simp only [create_adts_header, extract_aac_data_full, ← hcc]
      norm_num [List.getD_cons_zero, List.getD_cons_succ, List.length_cons,
        List.length_append, List.cons_append, List.nil_append, List.append_nil]
      have hF : (cc % 4 * 64 + (payload.length + 9) / 2048) % 4 * 2048 +
          (payload.length + 9) / 8 % 256 * 8 + ((payload.length + 9) % 8 * 32 + 31) / 32 =
          payload.length + 9 := by omega
      rw [hF, if_neg (by omega), if_neg (by omega), if_neg (by omega),
        if_pos (by omega)]
      simp [List.take_succ_cons, List.drop_succ_cons, List.take_length]
  simp only [extract_aac_data, hfull]

/-- C5 witness: a 3-byte AAC-LC payload at 44100 Hz stereo without CRC. -/
theorem adts_roundtrip_witness :
    extract_aac_data (create_adts_header 0x66 2 44100 3 false ++ [9, 9, 9]) =
      some [9, 9, 9] :=
  adts_roundtrip [9, 9, 9] 0x66 2 44100 false (by decide) (by decide) (by decide)

/-- C5 counterexample: for a payload of 8185 bytes (no CRC) the total frame
length is 8192, the 13-bit field wraps to 0, and extraction fails (in Rust
`Bytes::slice(7..0)` panics) instead of recovering the payload. -/
theorem adts_roundtrip_overflow_counterexample :
    extract_aac_data
      (create_adts_header 0x66 2 44100 8185 false ++ List.replicate 8185 0) = none ∧
    (none : Option (List Nat)) ≠ some (List.replicate 8185 0) := by
  have hc : create_adts_header 0x66 2 44100 8185 false =
      [255, 241, 80, 128, 0, 31, 252] := by decide
  have hL : ([255, 241, 80, 128, 0, 31, 252] ++ List.replicate 8185 0).length = 8192 := by
    rw [List.length_append, List.length_replicate]
    norm_num
  have h0 : ([255, 241, 80, 128, 0, 31, 252] ++ List.replicate 8185 0).getD 0 0 = 255 := by
    rw [List.getD_eq_getElem?_getD, List.getElem?_append_left (by norm_num)]
    rfl
  have h1 : ([255, 241, 80, 128, 0, 31, 252] ++ List.replicate 8185 0).getD 1 0 = 241 := by
    rw [List.getD_eq_getElem?_getD, List.getElem?_append_left (by norm_num)]
    rfl
  have h3 : ([255, 241, 80, 128, 0, 31, 252] ++ List.replicate 8185 0).getD 3 0 = 128 := by
    rw [List.getD_eq_getElem?_getD, List.getElem?_append_left (by norm_num)]
    rfl
  have h4 : ([255, 241, 80, 128, 0, 31, 252] ++ List.replicate 8185 0).getD 4 0 = 0 := by
    rw [List.getD_eq_getElem?_getD, List.getElem?_append_left (by norm_num)]
    rfl
  have h5 : ([255, 241, 80, 128, 0, 31, 252] ++ List.replicate 8185 0).getD 5 0 = 31 := by
    rw [List.getD_eq_getElem?_getD, List.getElem?_append_left (by norm_num)]
    rfl
  constructor
  · rw [hc]
    have hfull : extract_aac_data_full
        ([255, 241, 80, 128, 0, 31, 252] ++ List.replicate 8185 0) =
        AacExtract.slicePanic := by
      unfold extract_aac_data_full
      rw [if_neg (by rw [hL]; norm_num)]
      rw [if_neg (by rw [h0, h1]; norm_num)]
      rw [h1, h3, h4, h5, hL]
      norm_num
    simp only [extract_aac_data, hfull]
  · exact fun h => Option.noConfusion h

lemma read15_cons (b0 b1 : Nat) (rest : List Nat) (h0 : b0 < 256) (h1 : b1 < 256) :
    read (b0 :: b1 :: rest) 15 0 = .ok (b0 * 128 + b1 / 2, 15) := by
  simp only [read, readAux, readBit, List.length_cons, List.getD_cons_zero,
    List.getD_cons_succ]
  norm_num
  omega

lemma readBit15_cons (b0 b1 : Nat) (rest : List Nat) :
    readBit (b0 :: b1 :: rest) 15 = .ok (b1 % 2, 16) := by
  simp only [readBit, List.length_cons, List.getD_cons_zero, List.getD_cons_succ]
  norm_num

lemma read4_16_cons (b0 b1 b2 b3 : Nat) (rest : List Nat) (h2 : b2 < 256) :
    read (b0 :: b1 :: b2 :: b3 :: rest) 4 16 = .ok (b2 / 16, 20) := by
  simp only [read, readAux, readBit, List.length_cons, List.getD_cons_zero,
    List.getD_cons_succ]
  norm_num
  omega

lemma read4_20_cons (b0 b1 b2 b3 : Nat) (rest : List Nat) :
    read (b0 :: b1 :: b2 :: b3 :: rest) 4 20 = .ok (b2 % 16, 24) := by
  simp only [read, readAux, readBit, List.length_cons, List.getD_cons_zero,
    List.getD_cons_succ]
  norm_num
  omega

lemma read4_24_cons (b0 b1 b2 b3 : Nat) (rest : List Nat) (h3 : b3 < 256) :
    read (b0 :: b1 :: b2 :: b3 :: rest) 4 24 = .ok (b3 / 16, 28) := by
  simp only [read, readAux, readBit, List.length_cons, List.getD_cons_zero,
    List.getD_cons_succ]
  norm_num
  omega

lemma read3_28_cons (b0 b1 b2 b3 : Nat) (rest : List Nat) :
    read (b0 :: b1 :: b2 :: b3 :: rest) 3 28 = .ok (b3 / 2 % 8, 31) := by
  simp only [read, readAux, readBit, List.length_cons, List.getD_cons_zero,
    List.getD_cons_succ]
  norm_num
  omega

/-- C8: FLAC decode fails with `InvalidSyncCode` on any ≥2-byte buffer
whose first 15 bits differ from 0x7FFC; with `InvalidChannelMode m` on any
correct-sync buffer whose 4-bit channel-mode field `m` is ≥ 11; and with
`InvalidSampleSizeCode 3` on any correct-sync buffer with a valid channel
mode and bits-per-sample code 3. -/
theorem flac_decode_reserved_errors :
    (∀ (b0 b1 : Nat) (rest : List Nat), b0 < 256 → b1 < 256 →
      b0 * 128 + b1 / 2 ≠ 0x7FFC →
      decode_frame_header (b0 :: b1 :: rest) = .error .InvalidSyncCode) ∧
    (∀ (b0 b1 b2 b3 : Nat) (rest : List Nat), b0 < 256 → b1 < 256 → b2 < 256 →
      b3 < 256 → b0 * 128 + b1 / 2 = 0x7FFC → 11 ≤ b3 / 16 →
      decode_frame_header (b0 :: b1 :: b2 :: b3 :: rest) =
        .error (.InvalidChannelMode (b3 / 16))) ∧
    (∀ (b0 b1 b2 b3 : Nat) (rest : List Nat), b0 < 256 → b1 < 256 → b2 < 256 →
      b3 < 256 → b0 * 128 + b1 / 2 = 0x7FFC → b3 / 16 < 11 → b3 / 2 % 8 = 3 →
      decode_frame_header (b0 :: b1 :: b2 :: b3 :: rest) =
        .error (.InvalidSampleSizeCode 3)) := by
  refine ⟨?_, ?_, ?_⟩
  · intro b0 b1 rest h0 h1 hsync
    simp only [decode_frame_header, decodeCore, read15_cons b0 b1 rest h0 h1]
    rw [if_pos hsync]
  · intro b0 b1 b2 b3 rest h0 h1 h2 h3 hsync hch
    have hch8 : ¬ b3 / 16 < 8 := by omega
    have hch11 : ¬ b3 / 16 < 11 := by omega
    simp only [decode_frame_header, decodeCore,
      read15_cons b0 b1 (b2 :: b3 :: rest) h0 h1, hsync,
      readBit15_cons, read4_16_cons b0 b1 b2 b3 rest h2, read4_20_cons,
      read4_24_cons b0 b1 b2 b3 rest h3, if_neg hch8, if_neg hch11, reduceIte]
    norm_num
  · intro b0 b1 b2 b3 rest h0 h1 h2 h3 hsync hch hbps
    by_cases hc8 : b3 / 16 < 8
    · simp only [decode_frame_header, decodeCore,
        read15_cons b0 b1 (b2 :: b3 :: rest) h0 h1, hsync,
        readBit15_cons, read4_16_cons b0 b1 b2 b3 rest h2, read4_20_cons,
        read4_24_cons b0 b1 b2 b3 rest h3, if_pos hc8, read3_28_cons, hbps,
        reduceIte]
      norm_num
    · simp only [decode_frame_header, decodeCore,
        read15_cons b0 b1 (b2 :: b3 :: rest) h0 h1, hsync,
        readBit15_cons, read4_16_cons b0 b1 b2 b3 rest h2, read4_20_cons,
        read4_24_cons b0 b1 b2 b3 rest h3, if_neg hc8, if_pos hch,
        read3_28_cons, hbps, reduceIte]
      norm_num

/-- C8 witness: a buffer with broken sync; a correct-sync buffer with
channel-mode code 11; a correct-sync buffer with bits-per-sample code 3. -/
theorem flac_decode_reserved_errors_witness :
    decode_frame_header [0, 0] = .error .InvalidSyncCode ∧
    decode_frame_header [255, 248, 0, 0xB0] = .error (.InvalidChannelMode 11) ∧
    decode_frame_header [255, 248, 0, 6] = .error (.InvalidSampleSizeCode 3) :=
  ⟨flac_decode_reserved_errors.1 0 0 [] (by decide) (by decide) (by decide),
    flac_decode_reserved_errors.2.1 255 248 0 0xB0 [] (by decide) (by decide)
      (by decide) (by decide) (by decide) (by decide),
    flac_decode_reserved_errors.2.2 255 248 0 6 [] (by decide) (by decide)
      (by decide) (by decide) (by decide) (by decide) (by decide)⟩

lemma readAux_error_eq {data : List Nat} :
    ∀ {n acc pos : Nat} {e : FLACError},
      readAux data n acc pos = .error e → e = .UnexpectedEndOfInput := by
  intro n
  induction n with
  | zero => intro acc pos e h; exact Except.noConfusion h
  | succ n ih =>
    intro acc pos e h
    simp only [readAux] at h
    cases hb : readBit data pos with
    | error e2 =>
      rw [hb] at h
      have he2 : e2 = .UnexpectedEndOfInput := by
        simp only [readBit] at hb
        split at hb
        · exact Except.noConfusion hb
        · exact (Except.error.inj hb).symm
      subst he2
      exact (Except.error.inj h).symm
    | ok bp =>
      obtain ⟨b, p⟩ := bp
      rw [hb] at h
      exact ih h

lemma readUtf8Aux_ne_utf8 {data : List Nat} :
    ∀ (fuel v s pos : Nat), s % 7 = 0 →
      readUtf8Aux data fuel v s pos ≠ .error .UTF8DecodingError := by
  intro fuel
  induction fuel with
  | zero =>
    intro v s pos hs h
    exact FLACError.noConfusion (Except.error.inj h)
  | succ fuel ih =>
    intro v s pos hs h
    simp only [readUtf8Aux] at h
    cases hr : read data 8 pos with
    | error e =>
      rw [hr] at h
      have hr2 : readAux data 8 0 pos = .error e := hr
      have he : e = .UnexpectedEndOfInput := readAux_error_eq hr2
      subst he
      exact FLACError.noConfusion (Except.error.inj h)
    | ok bp =>
      obtain ⟨byte, p⟩ := bp
      rw [hr] at h
      dsimp only at h
      rw [if_neg (by omega : ¬(s = 36 ∧ byte / 8 % 32 ≠ 0))] at h
      by_cases hterm : byte / 128 % 2 = 0
      · rw [if_pos hterm] at h
        exact Except.noConfusion h
      · rw [if_neg hterm] at h
        exact ih _ (s + 7) p (by omega) h

/-- C9: the `shift == 36` guard of `read_utf8` is dead code — the shift
only takes the values 0, 7, 14, …, so no input ever fails with
`UTF8DecodingError`; in particular the seven bytes
`80 80 80 80 80 80 78`, whose final byte is read once the accumulated
shift (42) has passed 36 and has top-five-bit mask `0x78 ≠ 0`, decode
successfully to `120 * 2^42` instead of being rejected. -/
theorem read_utf8_guard_dead :
    (∀ (data : List Nat) (pos : Nat),
      read_utf8 data pos ≠ .error .UTF8DecodingError) ∧
    read_utf8 [0x80, 0x80, 0x80, 0x80, 0x80, 0x80, 0x78] 0 =
      .ok (120 * 2 ^ 42, 56) := by
  constructor
  · intro data pos
    exact readUtf8Aux_ne_utf8 _ 0 0 pos (by norm_num)
  · decide

/-- C9 witness: the general no-`UTF8DecodingError` fact applied at the
failing input. -/
theorem read_utf8_guard_dead_witness :
    read_utf8 [0x80, 0x80, 0x80, 0x80, 0x80, 0x80, 0x78] 0 ≠
      .error .UTF8DecodingError :=
  read_utf8_guard_dead.1 [0x80, 0x80, 0x80, 0x80, 0x80, 0x80, 0x78] 0

lemma readBit_append {data ext : List Nat} {pos : Nat} {r : Nat × Nat}
    (h : readBit data pos = .ok r) : readBit (data ++ ext) pos = .ok r := by
  simp only [readBit] at h ⊢
  split at h
  · rename_i hlt
    rw [if_pos (by simp only [List.length_append]; omega)]
    rw [List.getD_eq_getElem?_getD, List.getElem?_append_left hlt,
      ← List.getD_eq_getElem?_getD]
    exact h
  · exact Except.noConfusion h

lemma readAux_append {data ext : List Nat} :
    ∀ {n acc pos : Nat} {r : Nat × Nat},
      readAux data n acc pos = .ok r → readAux (data ++ ext) n acc pos = .ok r := by
  intro n
  induction n with
  | zero => intro acc pos r h; exact h
  | succ n ih =>
    intro acc pos r h
    simp only [readAux] at h ⊢
    cases hb : readBit data pos with
    | error e => rw [hb] at h; exact Except.noConfusion h
    | ok bp =>
      obtain ⟨b, p⟩ := bp
      rw [hb] at h
      rw [readBit_append hb]
      dsimp only at h ⊢
      exact ih h

lemma read_append {data ext : List Nat} {n pos : Nat} {r : Nat × Nat}
    (h : read data n pos = .ok r) : read (data ++ ext) n pos = .ok r :=
  readAux_append h

lemma readUtf8Aux_append {data ext : List Nat} :
    ∀ {fuel v s pos : Nat} {r : Nat × Nat},
      readUtf8Aux data fuel v s pos = .ok r →
      readUtf8Aux (data ++ ext) fuel v s pos = .ok r := by
  intro fuel
  induction fuel with
  | zero => intro v s pos r h; exact Except.noConfusion h
  | succ fuel ih =>
    intro v s pos r h
    simp only [readUtf8Aux] at h ⊢
    cases hr : read data 8 pos with
    | error e => rw [hr] at h; exact Except.noConfusion h
    | ok bp =>
      obtain ⟨byte, p⟩ := bp
      rw [hr] at h
      rw [read_append hr]
      dsimp only at h ⊢
      by_cases hguard : s = 36 ∧ byte / 8 % 32 ≠ 0
      · rw [if_pos hguard] at h
        exact Except.noConfusion h
      · rw [if_neg hguard] at h ⊢
        by_cases hterm : byte / 128 % 2 = 0
        · rw [if_pos hterm] at h ⊢
          exact h
        · rw [if_neg hterm] at h ⊢
          exact ih h

lemma readUtf8Aux_ok_mono {data : List Nat} :
    ∀ {fuel fuel' v s pos : Nat} {r : Nat × Nat}, fuel ≤ fuel' →
      readUtf8Aux data fuel v s pos = .ok r →
      readUtf8Aux data fuel' v s pos = .ok r := by
  intro fuel
  induction fuel with
  | zero => intro fuel' v s pos r hle h; exact Except.noConfusion h
  | succ fuel ih =>
    intro fuel' v s pos r hle h
    cases fuel' with
    | zero => omega
    | succ fuel2 =>
      simp only [readUtf8Aux] at h ⊢
      cases hr : read data 8 pos with
      | error e => rw [hr] at h; exact Except.noConfusion h
      | ok bp =>
        obtain ⟨byte, p⟩ := bp
        rw [hr] at h
        dsimp only at h ⊢
        by_cases hguard : s = 36 ∧ byte / 8 % 32 ≠ 0
        · rw [if_pos hguard] at h
          exact Except.noConfusion h
        · rw [if_neg hguard] at h ⊢
          by_cases hterm : byte / 128 % 2 = 0
          · rw [if_pos hterm] at h ⊢
            exact h
          · rw [if_neg hterm] at h ⊢
            exact ih (by omega) h

lemma read_utf8_append {data ext : List Nat} {pos : Nat} {r : Nat × Nat}
    (h : read_utf8 data pos = .ok r) : read_utf8 (data ++ ext) pos = .ok r := by
  simp only [read_utf8] at h ⊢
  exact readUtf8Aux_ok_mono (by simp only [List.length_append]; omega)
    (readUtf8Aux_append h)

lemma readBlockSize_append {data ext : List Nat} {bsCode pos : Nat} {r : Nat × Nat}
    (h : readBlockSize data bsCode pos = .ok r) :
    readBlockSize (data ++ ext) bsCode pos = .ok r := by
  simp only [readBlockSize] at h ⊢
  by_cases h0 : bsCode = 0
  · rw [if_pos h0] at h
    exact Except.noConfusion h
  rw [if_neg h0] at h ⊢
  by_cases h6 : bsCode = 6
  · rw [if_pos h6] at h ⊢
    cases hv : read data 8 pos with
    | error e => rw [hv] at h; exact Except.noConfusion h
    | ok vp =>
      obtain ⟨v, p⟩ := vp
      rw [hv] at h
      rw [read_append hv]
      dsimp only at h ⊢
      exact h
  rw [if_neg h6] at h ⊢
  by_cases h7 : bsCode = 7
  · rw [if_pos h7] at h ⊢
    cases hv : read data 16 pos with
    | error e => rw [hv] at h; exact Except.noConfusion h
    | ok vp =>
      obtain ⟨v, p⟩ := vp
      rw [hv] at h
      rw [read_append hv]
      dsimp only at h ⊢
      exact h
  rw [if_neg h7] at h ⊢
  exact h

lemma readSampleRate_append {data ext : List Nat} {srCode pos : Nat} {r : Nat × Nat}
    (h : readSampleRate data srCode pos = .ok r) :
    readSampleRate (data ++ ext) srCode pos = .ok r := by
  simp only [readSampleRate] at h ⊢
  by_cases h11 : srCode ≤ 11
  · rw [if_pos h11] at h ⊢
    exact h
  rw [if_neg h11] at h ⊢
  by_cases h12 : srCode = 12
  · rw [if_pos h12] at h ⊢
    cases hv : read data 8 pos with
    | error e => rw [hv] at h; exact Except.noConfusion h
    | ok vp =>
      obtain ⟨v, p⟩ := vp
      rw [hv] at h
      rw [read_append hv]
      dsimp only at h ⊢
      exact h
  rw [if_neg h12] at h ⊢
  by_cases h13 : srCode = 13
  · rw [if_pos h13] at h ⊢
    exact read_append h
  rw [if_neg h13] at h ⊢
  by_cases h14 : srCode = 14
  · rw [if_pos h14] at h ⊢
    cases hv : read data 16 pos with
    | error e => rw [hv] at h; exact Except.noConfusion h
    | ok vp =>
      obtain ⟨v, p⟩ := vp
      rw [hv] at h
      rw [read_append hv]
      dsimp only at h ⊢
      exact h
  rw [if_neg h14] at h ⊢
  exact Except.noConfusion h

lemma decodeCore_append {data ext : List Nat} {r : FLACFrameInfo × Nat}
    (h : decodeCore data = .ok r) : decodeCore (data ++ ext) = .ok r := by
  simp only [decodeCore] at h ⊢
  cases h15 : read data 15 0 with
  | error e => rw [h15] at h; exact Except.noConfusion h
  | ok sp =>
    obtain ⟨sync, p1⟩ := sp
    rw [h15] at h
    rw [read_append h15]
    dsimp only at h ⊢
    by_cases hsync : sync ≠ 0x7FFC
    · rw [if_pos hsync] at h
      exact Except.noConfusion h
    rw [if_neg hsync] at h ⊢
    cases hvb : readBit data p1 with
    | error e => rw [hvb] at h; exact Except.noConfusion h
    | ok sp =>
      obtain ⟨vbit, p2⟩ := sp
      rw [hvb] at h
      rw [readBit_append hvb]
      dsimp only at h ⊢
      cases hbs : read data 4 p2 with
      | error e => rw [hbs] at h; exact Except.noConfusion h
      | ok sp =>
        obtain ⟨bsCode, p3⟩ := sp
        rw [hbs] at h
        rw [read_append hbs]
        dsimp only at h ⊢
        cases hsr : read data 4 p3 with
        | error e => rw [hsr] at h; exact Except.noConfusion h
        | ok sp =>
          obtain ⟨srCode, p4⟩ := sp
          rw [hsr] at h
          rw [read_append hsr]
          dsimp only at h ⊢
          cases hcr : read data 4 p4 with
          | error e => rw [hcr] at h; exact Except.noConfusion h
          | ok sp =>
            obtain ⟨chRaw, p5⟩ := sp
            rw [hcr] at h
            rw [read_append hcr]
            dsimp only at h ⊢
            cases hch : (if chRaw < 8 then .ok (chRaw + 1, 0)
                else if chRaw < 11 then .ok (2, chRaw - 7)
                else .error (.InvalidChannelMode chRaw) :
                Except FLACError (Nat × Nat)) with
            | error e => rw [hch] at h; exact Except.noConfusion h
            | ok sp =>
              obtain ⟨channels, chMode⟩ := sp
              rw [hch] at h
              dsimp only at h ⊢
              cases hbp : read data 3 p5 with
              | error e => rw [hbp] at h; exact Except.noConfusion h
              | ok sp =>
                obtain ⟨bpsCode, p6⟩ := sp
                rw [hbp] at h
                rw [read_append hbp]
                dsimp only at h ⊢
                by_cases hbps3 : bpsCode = 3
                · rw [if_pos hbps3] at h
                  exact Except.noConfusion h
                rw [if_neg hbps3] at h ⊢
                cases hrb : readBit data p6 with
                | error e => rw [hrb] at h; exact Except.noConfusion h
                | ok sp =>
                  obtain ⟨rbit, p7⟩ := sp
                  rw [hrb] at h
                  rw [readBit_append hrb]
                  dsimp only at h ⊢
                  by_cases hrb1 : rbit = 1
                  · rw [if_pos hrb1] at h
                    exact Except.noConfusion h
                  rw [if_neg hrb1] at h ⊢
                  cases hu : read_utf8 data p7 with
                  | error e => rw [hu] at h; exact Except.noConfusion h
                  | ok sp =>
                    obtain ⟨num, p8⟩ := sp
                    rw [hu] at h
                    rw [read_utf8_append hu]
                    dsimp only at h ⊢
                    cases hbsz : readBlockSize data bsCode p8 with
                    | error e => rw [hbsz] at h; exact Except.noConfusion h
                    | ok sp =>
                      obtain ⟨blockSize, p9⟩ := sp
                      rw [hbsz] at h
                      rw [readBlockSize_append hbsz]
                      dsimp only at h ⊢
                      cases hsrr : readSampleRate data srCode p9 with
                      | error e => rw [hsrr] at h; exact Except.noConfusion h
                      | ok sp =>
                        obtain ⟨sampleRate, p10⟩ := sp
                        rw [hsrr] at h
                        rw [readSampleRate_append hsrr]
                        dsimp only at h ⊢
                        exact h

/-- C10: when a buffer is exactly one otherwise-valid FLAC frame header
whose final byte is the CRC-8 (the field reads succeed and leave the
cursor 8 bits short of the end), `decode_frame_header` fails with
`UnexpectedEndOfInput`, because `BitReader::skip` rejects a cursor landing
exactly at the end of the buffer; the same buffer extended by at least one
trailing byte decodes successfully. -/
theorem flac_crc_skip_at_end (data ext : List Nat) (fi : FLACFrameInfo) (pos : Nat)
    (hcore : decodeCore data = .ok (fi, pos)) (hend : pos + 8 = 8 * data.length)
    (hext : ext ≠ []) :
    decode_frame_header data = .error .UnexpectedEndOfInput ∧
    decode_frame_header (data ++ ext) = .ok fi := by
  have hlen : 0 < ext.length := List.length_pos.mpr hext
  constructor
  · simp only [decode_frame_header, hcore]
    simp only [skip]
    rw [if_pos (by omega)]
  · have hcore2 : decodeCore (data ++ ext) = .ok (fi, pos) := decodeCore_append hcore
    simp only [decode_frame_header, hcore2]
    simp only [skip, List.length_append]
    rw [if_neg (by omega)]

/-- C10 witness: a 6-byte valid header whose last byte is the CRC. -/
theorem flac_crc_skip_at_end_witness :
    decode_frame_header [0xFF, 0xF8, 0x19, 0x08, 0x00, 0x00] =
      .error .UnexpectedEndOfInput ∧
    decode_frame_header ([0xFF, 0xF8, 0x19, 0x08, 0x00, 0x00] ++ [0x00]) =
      .ok ⟨false, 0, 192, 44100, 0, 1, 16, 0⟩ :=
  flac_crc_skip_at_end [0xFF, 0xF8, 0x19, 0x08, 0x00, 0x00] [0x00]
    ⟨false, 0, 192, 44100, 0, 1, 16, 0⟩ 40 (by decide) (by decide) (by decide)

lemma readAux_ok_snd {data : List Nat} :
    ∀ {n acc pos : Nat} {r : Nat × Nat},
      readAux data n acc pos = .ok r →
      r.2 = pos + n ∧ (n = 0 ∨ pos / 8 < data.length) := by
  intro n
  induction n with
  | zero =>
    intro acc pos r h
    cases h
    exact ⟨by simp, Or.inl rfl⟩
  | succ n ih =>
    intro acc pos r h
    simp only [readAux] at h
    cases hb : readBit data pos with
    | error e => rw [hb] at h; exact Except.noConfusion h
    | ok bp =>
      obtain ⟨b, p⟩ := bp
      rw [hb] at h
      dsimp only at h
      obtain ⟨h2, _⟩ := ih h
      have hp : p = pos + 1 ∧ pos / 8 < data.length := by
        simp only [readBit] at hb
        split at hb
        · rename_i hlt
          exact ⟨((Prod.mk.injEq ..).mp (Except.ok.inj hb)).2.symm, hlt⟩
        · exact Except.noConfusion hb
      exact ⟨by omega, Or.inr hp.2⟩

/-- Fuel irrelevance for the `read_utf8` loop: any two fuels above the
number of bytes the cursor can still reach give identical results, so
`read_utf8`'s fuel `data.length + 1` computes exactly what the source's
unbounded loop does. -/
lemma readUtf8Aux_fuel_eq {data : List Nat} :
    ∀ {f f' v s pos : Nat},
      data.length - pos / 8 < f → data.length - pos / 8 < f' →
      readUtf8Aux data f v s pos = readUtf8Aux data f' v s pos := by
  intro f
  induction f with
  | zero => intro f' v s pos h1 h2; exact absurd h1 (by omega)
  | succ f ih =>
    intro f' v s pos h1 h2
    cases f' with
    | zero => exact absurd h2 (by omega)
    | succ f2 =>
      simp only [readUtf8Aux]
      cases hr : read data 8 pos with
      | error e => rfl
      | ok bp =>
        obtain ⟨byte, p⟩ := bp
        dsimp only
        have hp := readAux_ok_snd (show readAux data 8 0 pos = .ok (byte, p) from hr)
        have hp2 : p = pos + 8 := hp.1
        have hpos : pos / 8 < data.length := by
          rcases hp.2 with h | h
          · omega
          · exact h
        by_cases hguard : s = 36 ∧ byte / 8 % 32 ≠ 0
        · rw [if_pos hguard, if_pos hguard]
        · rw [if_neg hguard, if_neg hguard]
          by_cases hterm : byte / 128 % 2 = 0
          · rw [if_pos hterm, if_pos hterm]
          · rw [if_neg hterm, if_neg hterm]
            exact ih (by omega) (by omega)

/-- `read_utf8`'s fuel is sufficient: every larger fuel computes the same
result. -/
lemma read_utf8_fuel_sufficient (data : List Nat) (pos k : Nat) :
    readUtf8Aux data (data.length + 1 + k) 0 0 pos = read_utf8 data pos :=
  readUtf8Aux_fuel_eq (by omega) (by omega)

end AccessUnit
